import Mathlib

/-!
Verification of the step-dispatch and run-resolution subsystem of the zenml
excerpt, shallowly embedded in Lean.

Embedded source files:
* `src/zenml/post_execution/pipeline.py` — `PipelineView` and its
  `get_run_for_completed_step` / `__eq__` methods.
* `src/zenml/entrypoints/step_entrypoint_configuration.py` —
  `StepEntrypointConfiguration` with `get_entrypoint_options`,
  `get_entrypoint_arguments`, `run` and `_run_step`.

Conventions of the embedding:
* Python exceptions are modelled by `Except PyError`; a Python `dict` access
  that can raise `KeyError` is modelled by an association-list lookup
  returning `Option`.
* The remote store behind the `runs` property is modelled by giving each
  `PipelineView` the list of runs that the store returns for it
  (chronological order, latest last, exactly as the `runs` property
  documents).
* Effectful methods (`run`, `_run_step`) are modelled as functions that
  return a trace of the external calls they perform together with their
  `Except` result, so that call counts and call order are observable.
-/

/-- Model of a Python exception value. `keyError k` models `KeyError(k)`,
`lookupError msg` models `LookupError(msg)`, and `exc msg` models any other
exception raised by an external collaborator. -/
inductive PyError
  | keyError (key : String)
  | lookupError (msg : String)
  | exc (msg : String)
deriving DecidableEq

/-- First-match association-list lookup, modelling a Python mapping access
`m[k]` that yields `none` where Python would raise `KeyError`. -/
def assocLookup {α : Type} (kvs : List (String × α)) (k : String) : Option α :=
  (kvs.find? (fun kv => kv.1 == k)).map (fun kv => kv.2)

/-! ## Run/step resolution view (`post_execution/pipeline.py`) -/

/-- The step-run record fields used by the resolution view: only the
completion flag `is_completed` of a `StepRunView` is consulted. -/
structure StepRunView where
  is_completed : Bool
deriving DecidableEq

/-- A pipeline-run record. `run_id` stands for the run's identity and
`steps` for the run's step set keyed by step name
(`PipelineRunView.get_step` in the source). -/
structure PipelineRunView where
  run_id : Nat
  steps : List (String × StepRunView)
deriving DecidableEq

/-- `PipelineRunView.get_step(step_name)`: fetches the step with the given
name; `none` models the `KeyError` the source raises when the run has no
step of that name. -/
def PipelineRunView.get_step (r : PipelineRunView) (step_name : String) :
    Option StepRunView :=
  assocLookup r.steps step_name

/-- The `PipelineModel` fields used by `PipelineView` (UUIDs are modelled
as naturals). -/
structure PipelineModel where
  id : Nat
  name : String
  project_id : Nat
deriving DecidableEq

/-- `PipelineView` wraps a `PipelineModel`; the `runs` field is the list
the remote store returns for this pipeline via the `runs` property, in
chronological order with the latest run last. -/
structure PipelineView where
  model : PipelineModel
  runs : List PipelineRunView
deriving DecidableEq

/-- The `id` property of `PipelineView`: the wrapped model's id. -/
def PipelineView.id (p : PipelineView) : Nat :=
  p.model.id

/-- The `name` property of `PipelineView`: the wrapped model's name. -/
def PipelineView.name (p : PipelineView) : String :=
  p.model.name

/-- Whether a run contains a step named `n` whose completion flag is true:
the condition under which the loop body of `get_run_for_completed_step`
assigns `orig_pipeline_run` and breaks. -/
def hasCompletedStep (r : PipelineRunView) (n : String) : Bool :=
  match r.get_step n with
  | some s => s.is_completed
  | none => false

/-- The `for run in reversed(self.runs)` loop of
`get_run_for_completed_step`: returns the first run of the given list whose
step named `n` exists and is completed (`break`), skipping runs where
`get_step` raises `KeyError` (`except KeyError: pass`) or where the step is
not completed. -/
def findFirstCompleted : List PipelineRunView → String → Option PipelineRunView
  | [], _ => none
  | run :: rest, n =>
    match run.get_step n with
    | some step =>
      if step.is_completed then some run else findFirstCompleted rest n
    | none => findFirstCompleted rest n

/-- The message of the `LookupError` raised by `get_run_for_completed_step`
when no run completed the step. -/
def noCompletedRunMsg (step_name : String) : String :=
  "No Pipeline Run could be found, that has completed the provided step: ["
    ++ step_name ++ "]"

/-- `PipelineView.get_run_for_completed_step(step_name)`: iterates the runs
newest-first, returns the first run with a completed step of that name, and
raises `LookupError` when none is found. -/
def PipelineView.get_run_for_completed_step (p : PipelineView)
    (step_name : String) : Except PyError PipelineRunView :=
  match findFirstCompleted p.runs.reverse step_name with
  | some run => .ok run
  | none => .error (.lookupError (noCompletedRunMsg step_name))

/-- The result of Python's `__eq__`: either a boolean or `NotImplemented`. -/
inductive EqResult
  | bool (b : Bool)
  | notImplemented
deriving DecidableEq

/-- `PipelineView.__eq__(other)`: `other` is `some v` when the compared
object is a `PipelineView` and `none` when it is any non-`PipelineView`
value (the `isinstance` check fails and `NotImplemented` is returned). -/
def PipelineView.eq (self : PipelineView) (other : Option PipelineView) :
    EqResult :=
  match other with
  | some o => .bool (self.id == o.id)
  | none => .notImplemented

/-! ## Entrypoint argument codec
(`entrypoints/step_entrypoint_configuration.py`) -/

/-- The `STEP_NAME_OPTION` constant of the source. -/
def STEP_NAME_OPTION : String := "step_name"

/-- A usage error of the argument codec: a declared option without a value
at construction time (the source's `KeyError` on `kwargs[...]`), an
undeclared option token at decode time, or an option token without a
following value token. -/
inductive UsageError
  | missingOption (name : String)
  | unknownOption (token : String)
  | missingValue (token : String)
deriving DecidableEq

/-- Modelled from the spec:
`BaseEntrypointConfiguration.get_entrypoint_options` is not part of the
source excerpt. Per §4.1 the base class declares a base set of option
names; the embedding is parametrized by that base set, given as the list
`B` in the base class's emission order. -/
def BaseEntrypointConfiguration.get_entrypoint_options (B : List String) :
    Finset String :=
  B.toFinset

/-- `StepEntrypointConfiguration.get_entrypoint_options`: the superclass
options together with an option for the name of the step to run (Python
set union `|`). -/
def StepEntrypointConfiguration.get_entrypoint_options (B : List String) :
    Finset String :=
  BaseEntrypointConfiguration.get_entrypoint_options B ∪ {STEP_NAME_OPTION}

/-- Modelled from the spec:
`BaseEntrypointConfiguration.get_entrypoint_arguments` is not part of the
source excerpt. Per §4.1 it emits, for every base option in order, a
`--<option_name>` token followed by that option's value from `values`, and
a declared option missing from `values` is a usage error. -/
def BaseEntrypointConfiguration.get_entrypoint_arguments :
    List String → List (String × String) → Except UsageError (List String)
  | [], _ => .ok []
  | o :: rest, values =>
    match assocLookup values o with
    | none => .error (.missingOption o)
    | some v =>
      (fun args => ("--" ++ o) :: v :: args) <$>
        BaseEntrypointConfiguration.get_entrypoint_arguments rest values

/-- `StepEntrypointConfiguration.get_entrypoint_arguments(**kwargs)`: the
superclass arguments followed by `--step_name` and the step name from
`kwargs`; the `KeyError` raised by `kwargs[STEP_NAME_OPTION]` when the step
name is missing is modelled as the missing-option usage error. -/
def StepEntrypointConfiguration.get_entrypoint_arguments (B : List String)
    (values : List (String × String)) : Except UsageError (List String) := do
  let baseArgs ← BaseEntrypointConfiguration.get_entrypoint_arguments B values
  match assocLookup values STEP_NAME_OPTION with
  | some v => .ok (baseArgs ++ [("--" ++ STEP_NAME_OPTION), v])
  | none => .error (.missingOption STEP_NAME_OPTION)

/-- Modelled from the spec: the companion parser for entrypoint arguments
is not part of the source excerpt. Per §4.1 and §6 it parses
`--option value` token pairs, accepts exactly the declared option set, and
treats an undeclared option token or a missing value as a usage error. -/
def decode_entrypoint_arguments (opts : List String) :
    List String → Except UsageError (List (String × String))
  | [] => .ok []
  | [t] => .error (.missingValue t)
  | t :: v :: rest =>
    match opts.find? (fun o => ("--" ++ o) == t) with
    | some o =>
      (fun kvs => (o, v) :: kvs) <$> decode_entrypoint_arguments opts rest
    | none => .error (.unknownOption t)

/-! ## Step entrypoint runner and dispatch bridge
(`entrypoints/step_entrypoint_configuration.py`) -/

/-- A `Step` configuration of a deployment. Its contents are opaque to
this subsystem; only its identity matters here. -/
structure Step where
  step_id : Nat
deriving DecidableEq

/-- The pipeline configuration of a deployment: the `pipeline.name` field
read by `run`. -/
structure PipelineConfig where
  name : String
deriving DecidableEq

/-- `PipelineDeployment`: the pipeline configuration plus the mapping from
step name to `Step`. -/
structure PipelineDeployment where
  pipeline : PipelineConfig
  steps : List (String × Step)
deriving DecidableEq

/-- An `ExecutionInfo` result object. Opaque; only its identity matters. -/
structure ExecutionInfo where
  info_id : Nat
deriving DecidableEq

/-- The active orchestrator (`Client().active_stack.orchestrator`),
modelled as an explicit context object: its `_prepare_run` preparation
hook and its `run_step` execution method, each of which may raise. -/
structure Orchestrator where
  prepare_run : PipelineDeployment → Except PyError Unit
  run_step : Step → Except PyError (Option ExecutionInfo)

/-- One observable call made during an entrypoint invocation: the external
collaborator calls of `run` and `_run_step`, plus the
`deployment_config.steps[step_name]` lookup attempt (recorded so that the
stage order is observable). -/
inductive Event
  | loadDeployment
  | activateIntegrations
  | stepLookup (step_name : String)
  | configureStep (step : Step)
  | prepareRun (deployment : PipelineDeployment)
  | runStep (step : Step)
  | postRun (pipeline_name : String) (step_name : String)
      (info : Option ExecutionInfo)
deriving DecidableEq

/-- Whether an event is a call to the orchestrator's preparation hook. -/
def Event.isPrepare : Event → Bool
  | .prepareRun _ => true
  | _ => false

/-- Whether an event is the step-resolution lookup
`deployment.steps[step_name]`. -/
def Event.isStepLookup : Event → Bool
  | .stepLookup _ => true
  | _ => false

/-- Whether an event is the capability (integration) activation call. -/
def Event.isActivate : Event → Bool
  | .activateIntegrations => true
  | _ => false

/-- `StepEntrypointConfiguration._run_step(step, deployment)`: calls the
active orchestrator's `_prepare_run` hook with the deployment, then
returns the result of the orchestrator's `run_step` on the step; the trace
of orchestrator calls is returned next to the result. -/
def StepEntrypointConfiguration._run_step (orch : Orchestrator)
    (step : Step) (deployment : PipelineDeployment) :
    List Event × Except PyError (Option ExecutionInfo) :=
  match orch.prepare_run deployment with
  | .error e => ([.prepareRun deployment], .error e)
  | .ok _ => ([.prepareRun deployment, .runStep step], orch.run_step step)

/-- The collaborators of one entrypoint invocation: the decoded entrypoint
arguments, the deployment loader's result, the active orchestrator, and
the (possibly subclass-overridden) post-run hook. -/
structure RunnerEnv where
  entrypoint_args : List (String × String)
  load_deployment_config : Except PyError PipelineDeployment
  orchestrator : Orchestrator
  post_run : String → String → Option ExecutionInfo → Except PyError Unit

/-- `StepEntrypointConfiguration.run()`: loads the deployment, reads the
step name from `entrypoint_args` (a `KeyError` when absent), activates the
integrations, looks up `deployment_config.steps[step_name]` (a `KeyError`
when absent), configures the step, dispatches through `_run_step`, and
finally calls the post-run hook. An exception raised at any stage aborts
there and becomes the result. -/
def StepEntrypointConfiguration.run (env : RunnerEnv) :
    List Event × Except PyError Unit :=
  match env.load_deployment_config with
  | .error e => ([.loadDeployment], .error e)
  | .ok deployment_config =>
    match assocLookup env.entrypoint_args STEP_NAME_OPTION with
    | none => ([.loadDeployment], .error (.keyError STEP_NAME_OPTION))
    | some step_name =>
      let pipeline_name := deployment_config.pipeline.name
      match assocLookup deployment_config.steps step_name with
      | none =>
        ([.loadDeployment, .activateIntegrations, .stepLookup step_name],
          .error (.keyError step_name))
      | some step =>
        let bridge := StepEntrypointConfiguration._run_step
          env.orchestrator step deployment_config
        match bridge.2 with
        | .error e =>
          ([.loadDeployment, .activateIntegrations, .stepLookup step_name,
            .configureStep step] ++ bridge.1, .error e)
        | .ok execution_info =>
          match env.post_run pipeline_name step_name execution_info with
          | .error e =>
            ([.loadDeployment, .activateIntegrations, .stepLookup step_name,
              .configureStep step] ++ bridge.1 ++
              [.postRun pipeline_name step_name execution_info], .error e)
          | .ok _ =>
            ([.loadDeployment, .activateIntegrations, .stepLookup step_name,
              .configureStep step] ++ bridge.1 ++
              [.postRun pipeline_name step_name execution_info], .ok ())

/-- The stage-ordering assertion of claim C9 restricted to the disputed
pair of stages: in a trace, the step-resolution lookup happens strictly
before the capability-activation call. -/
def stepLookupBeforeActivation (tr : List Event) : Prop :=
  tr.findIdx Event.isStepLookup < tr.findIdx Event.isActivate

/-! ### Lemmas about the resolution loop -/

/-- The loop is first-match search: it agrees with `List.find?` over the
completed-step predicate. -/
theorem findFirstCompleted_eq_find? (l : List PipelineRunView) (n : String) :
    findFirstCompleted l n = l.find? (fun r => hasCompletedStep r n) := by
  induction l with
  | nil => rfl
  | cons run rest ih =>
    rw [List.find?_cons]
    unfold findFirstCompleted
    cases h : run.get_step n with
    | some s =>
      simp only [hasCompletedStep, h, ih]
      cases s.is_completed <;> simp
    | none => simp [hasCompletedStep, h, ih]

/-- `find?` skips a leading block of elements that all fail the predicate. -/
theorem find?_append_of_all_neg {α : Type} (p : α → Bool) (l₁ l₂ : List α)
    (h : ∀ a ∈ l₁, p a = false) : (l₁ ++ l₂).find? p = l₂.find? p := by
  induction l₁ with
  | nil => rfl
  | cons a t ih =>
    rw [List.cons_append, List.find?_cons_of_neg]
    · exact ih fun x hx => h x (List.mem_cons_of_mem a hx)
    · simp [h a (List.mem_cons_self a t)]

/-! ## Claims about the resolution view -/

/-- Claim C1: for every pipeline whose run history (chronological order)
contains a run `r` with a completed step named `n` after which no run has a
completed step named `n`, `get_run_for_completed_step n` returns `r` — the
most recent completed match wins, older completed matches are ignored. -/
theorem c1_most_recent_completed_run (p : PipelineView) (n : String)
    (r : PipelineRunView) (pre post : List PipelineRunView)
    (hsplit : p.runs = pre ++ r :: post)
    (hr : hasCompletedStep r n = true)
    (hpost : ∀ r' ∈ post, hasCompletedStep r' n = false) :
    p.get_run_for_completed_step n = .ok r := by
  have h1 : p.runs.reverse = post.reverse ++ (r :: pre.reverse) := by
    rw [hsplit]; simp
  have h2 : (post.reverse ++ (r :: pre.reverse)).find?
      (fun x => hasCompletedStep x n) = some r := by
    rw [find?_append_of_all_neg]
    · exact List.find?_cons_of_pos _ hr
    · intro a ha; exact hpost a (List.mem_reverse.mp ha)
  simp [PipelineView.get_run_for_completed_step, findFirstCompleted_eq_find?,
    h1, h2]

/-- Witness for C1, the spec's own example: runs `[R1, R2, R3]` where `R1`
and `R3` contain a completed step `"train"` and `R2` does not contain it;
the most recent `R3` is returned. -/
theorem c1_witness :
    PipelineView.get_run_for_completed_step
      ⟨⟨7, "p", 0⟩,
       [⟨1, [("train", ⟨true⟩)]⟩, ⟨2, []⟩, ⟨3, [("train", ⟨true⟩)]⟩]⟩
      "train" = .ok ⟨3, [("train", ⟨true⟩)]⟩ :=
  c1_most_recent_completed_run _ "train" _
    [⟨1, [("train", ⟨true⟩)]⟩, ⟨2, []⟩] [] rfl rfl (by simp)

/-- Claim C4: during `get_run_for_completed_step n`, a run where the step
lookup fails (`get_step` raises `KeyError`) and equally a run where the
step exists but is not completed is skipped silently: appending such a run
as the newest run leaves the result unchanged — iteration continues to the
next older run, neither case aborts the search or raises. -/
theorem c4_skip_absent_or_incomplete (p : PipelineView) (n : String)
    (r : PipelineRunView)
    (h : r.get_step n = none ∨
      ∃ s, r.get_step n = some s ∧ s.is_completed = false) :
    PipelineView.get_run_for_completed_step ⟨p.model, p.runs ++ [r]⟩ n =
      p.get_run_for_completed_step n := by
  have hpred : hasCompletedStep r n = false := by
    unfold hasCompletedStep
    rcases h with h | ⟨s, hs, hc⟩
    · rw [h]
    · rw [hs]; exact hc
  have h2 : findFirstCompleted (r :: p.runs.reverse) n =
      findFirstCompleted p.runs.reverse n := by
    rw [findFirstCompleted_eq_find?, findFirstCompleted_eq_find?]
    exact List.find?_cons_of_neg _ (by simp [hpred])
  simp only [PipelineView.get_run_for_completed_step]
  rw [show (p.runs ++ [r]).reverse = r :: p.runs.reverse by simp, h2]

/-- Witness for C4: adding a newest run that lacks the step entirely does
not change the resolution result. -/
theorem c4_witness :
    PipelineView.get_run_for_completed_step
      ⟨⟨7, "p", 0⟩, [⟨1, [("train", ⟨true⟩)]⟩] ++ [⟨2, []⟩]⟩ "train" =
      PipelineView.get_run_for_completed_step
        ⟨⟨7, "p", 0⟩, [⟨1, [("train", ⟨true⟩)]⟩]⟩ "train" :=
  c4_skip_absent_or_incomplete ⟨⟨7, "p", 0⟩, [⟨1, [("train", ⟨true⟩)]⟩]⟩
    "train" ⟨2, []⟩ (Or.inl rfl)

/-- Claim C5: when no run has a completed step named `n` (absent everywhere
or present only with a false completion flag), `get_run_for_completed_step`
raises the not-found `LookupError`, whose message carries the queried step
name. -/
theorem c5_not_found_error (p : PipelineView) (n : String)
    (h : ∀ r ∈ p.runs, hasCompletedStep r n = false) :
    p.get_run_for_completed_step n =
      .error (.lookupError (noCompletedRunMsg n)) ∧
    ∃ a b, noCompletedRunMsg n = a ++ n ++ b := by
  constructor
  · have h2 : findFirstCompleted p.runs.reverse n = none := by
      rw [findFirstCompleted_eq_find?]
      exact List.find?_eq_none.mpr
        (fun x hx => by simp [h x (List.mem_reverse.mp hx)])
    simp [PipelineView.get_run_for_completed_step, h2]
  · exact ⟨"No Pipeline Run could be found, that has completed the provided step: [",
      "]", rfl⟩

/-- Witness for C5, the spec's example: `"eval"` is absent from one run and
present but not completed in the other; the not-found error is raised. -/
theorem c5_witness :
    PipelineView.get_run_for_completed_step
      ⟨⟨7, "p", 0⟩, [⟨1, []⟩, ⟨2, [("eval", ⟨false⟩)]⟩]⟩ "eval" =
      .error (.lookupError (noCompletedRunMsg "eval")) ∧
    ∃ a b, noCompletedRunMsg "eval" = a ++ "eval" ++ b :=
  c5_not_found_error _ "eval" (by decide)

/-- Claim C10: `PipelineView.__eq__` compares the wrapped models' ids —
`a == b` is `True` exactly when the ids are equal, so views wrapping models
with the same id but different names or run histories compare equal, and
comparison with a non-`PipelineView` object returns `NotImplemented`. -/
theorem c10_eq_by_model_id (a b : PipelineView) :
    (PipelineView.eq a (some b) = .bool true ↔ a.id = b.id) ∧
    PipelineView.eq a none = .notImplemented ∧
    ∀ (i pa pb : Nat) (na nb : String) (ra rb : List PipelineRunView),
      PipelineView.eq ⟨⟨i, na, pa⟩, ra⟩ (some ⟨⟨i, nb, pb⟩, rb⟩) =
        .bool true := by
  refine ⟨?_, rfl, ?_⟩
  · simp [PipelineView.eq]
  · intro i pa pb na nb ra rb
    simp [PipelineView.eq, PipelineView.id]

/-! ### Lemmas about the argument codec -/

/-- Association-list lookup on the empty list. -/
theorem assocLookup_nil {α : Type} (k : String) :
    assocLookup ([] : List (String × α)) k = none :=
  rfl

/-- Association-list lookup hits a matching head. -/
theorem assocLookup_cons_pos {α : Type} (kv : String × α)
    (t : List (String × α)) (k : String) (h : kv.1 = k) :
    assocLookup (kv :: t) k = some kv.2 := by
  simp [assocLookup, List.find?_cons, h]

/-- Association-list lookup skips a non-matching head. -/
theorem assocLookup_cons_neg {α : Type} (kv : String × α)
    (t : List (String × α)) (k : String) (h : kv.1 ≠ k) :
    assocLookup (kv :: t) k = assocLookup t k := by
  simp [assocLookup, List.find?_cons, h]

/-- A key has a lookup value exactly when it occurs among the keys. -/
theorem assocLookup_isSome_iff {α : Type} (kvs : List (String × α))
    (k : String) :
    (assocLookup kvs k).isSome = true ↔ k ∈ kvs.map Prod.fst := by
  induction kvs with
  | nil => simp [assocLookup_nil]
  | cons kv t ih =>
    by_cases hk : kv.1 = k
    · simp [assocLookup_cons_pos kv t k hk, hk]
    · simp [assocLookup_cons_neg kv t k hk, ih, Ne.symm hk]

/-- Lookup in a key-tagged map followed by a rest: a key of the map is
found with its tagged value, others fall through to the rest. -/
theorem assocLookup_map_append {α : Type} (l : List String) (g : String → α)
    (rest : List (String × α)) (k : String) :
    assocLookup (l.map (fun o => (o, g o)) ++ rest) k =
      if k ∈ l then some (g k) else assocLookup rest k := by
  induction l with
  | nil => simp
  | cons h t ih =>
    by_cases hk : h = k
    · subst hk
      simp [assocLookup_cons_pos (⟨h, g h⟩ : String × α) _ h rfl]
    · rw [List.map_cons, List.cons_append,
        assocLookup_cons_neg (⟨h, g h⟩ : String × α) _ k hk, ih]
      simp [Ne.symm hk]

/-- `String.append` is left-cancellative. -/
theorem string_append_left_cancel {s a b : String} (h : s ++ a = s ++ b) :
    a = b := by
  have h2 := congrArg String.data h
  simp only [String.data_append] at h2
  exact String.ext (List.append_cancel_left h2)

/-- The decoder's option search recovers exactly the encoded option name:
searching the declared options for the one matching token `--o` yields
`o` itself whenever `o` is declared. -/
theorem find?_dashed_option (opts : List String) (o : String)
    (ho : o ∈ opts) :
    opts.find? (fun x => ("--" ++ x) == ("--" ++ o)) = some o := by
  induction opts with
  | nil => cases ho
  | cons h t ih =>
    by_cases hh : ("--" ++ h : String) = ("--" ++ o)
    · rw [List.find?_cons_of_pos _ (by simp [hh])]
      exact congrArg some (string_append_left_cancel hh)
    · rw [List.find?_cons_of_neg _ (by simp [hh])]
      rcases List.mem_cons.mp ho with rfl | hm
      · exact absurd rfl hh
      · exact ih hm

/-- Constructing base arguments succeeds when every base option has a
value, and the decoder consumes the produced tokens into the corresponding
key/value pairs in front of whatever follows. -/
theorem base_args_decode (B : List String) (opts : List String)
    (values : List (String × String)) (tail : List String)
    (hsome : ∀ o ∈ B, (assocLookup values o).isSome = true)
    (hopts : ∀ o ∈ B, o ∈ opts) :
    ∃ args,
      BaseEntrypointConfiguration.get_entrypoint_arguments B values =
        .ok args ∧
      decode_entrypoint_arguments opts (args ++ tail) =
        (fun kvs =>
          B.map (fun o => (o, (assocLookup values o).getD "")) ++ kvs) <$>
          decode_entrypoint_arguments opts tail := by
  induction B with
  | nil =>
    refine ⟨[], rfl, ?_⟩
    cases hdt : decode_entrypoint_arguments opts tail <;>
      simp [hdt, Functor.map, Except.map]
  | cons o rest ih =>
    obtain ⟨v, hv⟩ :=
      Option.isSome_iff_exists.mp (hsome o (List.mem_cons_self o rest))
    obtain ⟨args', hargs', hdec⟩ :=
      ih (fun x hx => hsome x (List.mem_cons_of_mem o hx))
        (fun x hx => hopts x (List.mem_cons_of_mem o hx))
    refine ⟨("--" ++ o) :: v :: args', ?_, ?_⟩
    · simp [BaseEntrypointConfiguration.get_entrypoint_arguments, hv,
        hargs', Functor.map, Except.map]
    · rw [List.cons_append, List.cons_append]
      rw [show decode_entrypoint_arguments opts
            (("--" ++ o) :: v :: (args' ++ tail)) =
          (fun kvs => (o, v) :: kvs) <$>
            decode_entrypoint_arguments opts (args' ++ tail) by
        simp [decode_entrypoint_arguments,
          find?_dashed_option opts o (hopts o (List.mem_cons_self o rest))]]
      rw [hdec]
      cases hdt : decode_entrypoint_arguments opts tail <;>
        simp [hdt, Functor.map, Except.map, hv]

/-- A base option without a value makes base argument construction fail. -/
theorem base_args_missing (B : List String)
    (values : List (String × String)) (o : String) (ho : o ∈ B)
    (hno : assocLookup values o = none) :
    ∃ e, BaseEntrypointConfiguration.get_entrypoint_arguments B values =
      .error e := by
  induction B with
  | nil => cases ho
  | cons b rest ih =>
    cases hb : assocLookup values b with
    | none =>
      exact ⟨.missingOption b,
        by simp [BaseEntrypointConfiguration.get_entrypoint_arguments, hb]⟩
    | some v =>
      rcases List.mem_cons.mp ho with rfl | hm
      · rw [hb] at hno; cases hno
      · obtain ⟨e, he⟩ := ih hm
        exact ⟨e, by
          simp [BaseEntrypointConfiguration.get_entrypoint_arguments, hb,
            he, Functor.map, Except.map]⟩

/-! ## Claims about the argument codec -/

/-- Claim C6: the step entrypoint configuration's option set is a superset
of the base class's options — the union of the superclass options with the
subclass-added `"step_name"` — so no base option is removed by
subclassing. -/
theorem c6_options_superset (B : List String) :
    BaseEntrypointConfiguration.get_entrypoint_options B ⊆
      StepEntrypointConfiguration.get_entrypoint_options B ∧
    STEP_NAME_OPTION ∈ StepEntrypointConfiguration.get_entrypoint_options B :=
  ⟨Finset.subset_union_left,
    Finset.mem_union_right _ (Finset.mem_singleton_self _)⟩

/-- Claim C7: a value mapping missing at least one declared option makes
`get_entrypoint_arguments` fail with a usage error; no token sequence is
produced. -/
theorem c7_missing_option_errors (B : List String)
    (values : List (String × String))
    (h : ∃ o ∈ StepEntrypointConfiguration.get_entrypoint_options B,
      assocLookup values o = none) :
    ∃ e, StepEntrypointConfiguration.get_entrypoint_arguments B values =
      .error e := by
  obtain ⟨o, ho, hno⟩ := h
  rcases Finset.mem_union.mp ho with hB | hsn
  · obtain ⟨e, he⟩ :=
      base_args_missing B values o (List.mem_toFinset.mp hB) hno
    exact ⟨e, by
      simp [StepEntrypointConfiguration.get_entrypoint_arguments, he,
        Bind.bind, Except.bind]⟩
  · have hsn' : o = STEP_NAME_OPTION := Finset.mem_singleton.mp hsn
    subst hsn'
    cases hbase :
        BaseEntrypointConfiguration.get_entrypoint_arguments B values with
    | error e =>
      exact ⟨e, by
        simp [StepEntrypointConfiguration.get_entrypoint_arguments, hbase,
          Bind.bind, Except.bind]⟩
    | ok args' =>
      exact ⟨.missingOption STEP_NAME_OPTION, by
        simp [StepEntrypointConfiguration.get_entrypoint_arguments, hbase,
          hno, Bind.bind, Except.bind]⟩

/-- Witness for C7: with base options `["deployment_id"]` and a value
mapping lacking `"step_name"`, argument construction errors. -/
theorem c7_witness :
    ∃ e, StepEntrypointConfiguration.get_entrypoint_arguments
      ["deployment_id"] [("deployment_id", "cfg")] = .error e :=
  c7_missing_option_errors ["deployment_id"] [("deployment_id", "cfg")]
    (by decide)

/-- Claim C2: for any value mapping whose keys cover exactly the declared
option set, construction of entrypoint arguments succeeds and decoding the
produced token sequence yields back exactly the original mapping. -/
theorem c2_roundtrip (B : List String) (values : List (String × String))
    (hcover : (values.map Prod.fst).toFinset =
      StepEntrypointConfiguration.get_entrypoint_options B) :
    ∃ args kvs,
      StepEntrypointConfiguration.get_entrypoint_arguments B values =
        .ok args ∧
      decode_entrypoint_arguments
        (StepEntrypointConfiguration.get_entrypoint_options B).toList args =
        .ok kvs ∧
      ∀ o, assocLookup kvs o = assocLookup values o := by
  have hmem : ∀ o,
      (o ∈ StepEntrypointConfiguration.get_entrypoint_options B) ↔
        (assocLookup values o).isSome = true := by
    intro o
    rw [← hcover, List.mem_toFinset, assocLookup_isSome_iff]
  have hsn : STEP_NAME_OPTION ∈
      StepEntrypointConfiguration.get_entrypoint_options B :=
    Finset.mem_union_right _ (Finset.mem_singleton_self _)
  obtain ⟨v, hv⟩ := Option.isSome_iff_exists.mp ((hmem _).mp hsn)
  have hB_opts : ∀ o ∈ B,
      o ∈ (StepEntrypointConfiguration.get_entrypoint_options B).toList := by
    intro o ho
    exact Finset.mem_toList.mpr
      (Finset.mem_union_left _ (List.mem_toFinset.mpr ho))
  have hB_some : ∀ o ∈ B, (assocLookup values o).isSome = true := by
    intro o ho
    exact (hmem o).mp (Finset.mem_union_left _ (List.mem_toFinset.mpr ho))
  obtain ⟨args', hargs', hdec⟩ :=
    base_args_decode B
      (StepEntrypointConfiguration.get_entrypoint_options B).toList values
      ["--" ++ STEP_NAME_OPTION, v] hB_some hB_opts
  have htail : decode_entrypoint_arguments
      (StepEntrypointConfiguration.get_entrypoint_options B).toList
      ["--" ++ STEP_NAME_OPTION, v] = .ok [(STEP_NAME_OPTION, v)] := by
    simp [decode_entrypoint_arguments,
      find?_dashed_option _ STEP_NAME_OPTION (Finset.mem_toList.mpr hsn),
      Functor.map, Except.map]
  refine ⟨args' ++ ["--" ++ STEP_NAME_OPTION, v],
    B.map (fun o => (o, (assocLookup values o).getD "")) ++
      [(STEP_NAME_OPTION, v)], ?_, ?_, ?_⟩
  · simp [StepEntrypointConfiguration.get_entrypoint_arguments, hargs', hv,
      Bind.bind, Except.bind]
  · rw [hdec, htail]
    simp [Functor.map, Except.map]
  · intro o
    rw [assocLookup_map_append]
    by_cases hoB : o ∈ B
    · simp only [hoB, if_true]
      obtain ⟨w, hw⟩ := Option.isSome_iff_exists.mp (hB_some o hoB)
      rw [hw]
      rfl
    · simp only [hoB, if_false]
      by_cases hosn : o = STEP_NAME_OPTION
      · subst hosn
        rw [assocLookup_cons_pos _ _ _ rfl, hv]
      · rw [assocLookup_cons_neg _ _ _ (fun hh => hosn hh.symm),
          assocLookup_nil]
        have hnotin : ¬ (assocLookup values o).isSome = true := by
          intro hs
          rcases Finset.mem_union.mp ((hmem o).mpr hs) with h1 | h2
          · exact hoB (List.mem_toFinset.mp h1)
          · exact hosn (Finset.mem_singleton.mp h2)
        cases hvo : assocLookup values o with
        | none => rfl
        | some w => rw [hvo] at hnotin; simp at hnotin

/-- Witness for C2: base options `["deployment_id"]`, values for
`deployment_id` and `step_name`; the roundtrip returns the mapping. -/
theorem c2_witness :
    ∃ args kvs,
      StepEntrypointConfiguration.get_entrypoint_arguments ["deployment_id"]
        [("deployment_id", "cfg"), ("step_name", "trainer")] = .ok args ∧
      decode_entrypoint_arguments
        (StepEntrypointConfiguration.get_entrypoint_options
          ["deployment_id"]).toList args = .ok kvs ∧
      ∀ o, assocLookup kvs o =
        assocLookup [("deployment_id", "cfg"), ("step_name", "trainer")] o :=
  c2_roundtrip ["deployment_id"]
    [("deployment_id", "cfg"), ("step_name", "trainer")] (by decide)

/-! ## Claims about the runner and the dispatch bridge -/

/-- Claim C3: one call to the dispatch bridge `_run_step` calls the active
orchestrator's preparation hook with the deployment exactly once; when
preparation succeeds it then calls the orchestrator's `run_step` exactly
once and returns that call's result — possibly `None` — unmodified, and
when the orchestrator raises, the error propagates unchanged with no
retry. -/
theorem c3_dispatch_forwarding (orch : Orchestrator) (step : Step)
    (deployment : PipelineDeployment) :
    ((StepEntrypointConfiguration._run_step orch step deployment).1.countP
      Event.isPrepare = 1) ∧
    (orch.prepare_run deployment = .ok () →
      (StepEntrypointConfiguration._run_step orch step deployment).1 =
        [.prepareRun deployment, .runStep step] ∧
      (StepEntrypointConfiguration._run_step orch step deployment).2 =
        orch.run_step step) ∧
    (∀ e, orch.prepare_run deployment = .error e →
      (StepEntrypointConfiguration._run_step orch step deployment).1 =
        [.prepareRun deployment] ∧
      (StepEntrypointConfiguration._run_step orch step deployment).2 =
        .error e) := by
  cases h : orch.prepare_run deployment with
  | ok u =>
    cases u
    simp [StepEntrypointConfiguration._run_step, h, List.countP_cons,
      List.countP_nil, Event.isPrepare]
  | error e =>
    simp [StepEntrypointConfiguration._run_step, h, List.countP_cons,
      List.countP_nil, Event.isPrepare]

/-- Witness for C3: an orchestrator whose preparation succeeds and whose
`run_step` returns no execution info; the bridge performs one preparation
call, one execution call, and returns the `None` result unmodified. -/
theorem c3_witness :
    (StepEntrypointConfiguration._run_step
      ⟨fun _ => .ok (), fun _ => .ok none⟩ ⟨5⟩ ⟨⟨"p"⟩, [("s", ⟨5⟩)]⟩).1 =
      [.prepareRun ⟨⟨"p"⟩, [("s", ⟨5⟩)]⟩, .runStep ⟨5⟩] ∧
    (StepEntrypointConfiguration._run_step
      ⟨fun _ => .ok (), fun _ => .ok none⟩ ⟨5⟩ ⟨⟨"p"⟩, [("s", ⟨5⟩)]⟩).2 =
      .ok none :=
  (c3_dispatch_forwarding ⟨fun _ => .ok (), fun _ => .ok none⟩ ⟨5⟩
    ⟨⟨"p"⟩, [("s", ⟨5⟩)]⟩).2.1 rfl

/-- Claim C8: an exception raised inside the post-run hook during `run()`
propagates to the caller of `run()` — not caught, wrapped, or
suppressed — and the step has executed before the failure (the dispatch
call is in the trace). -/
theorem c8_hook_error_propagates (env : RunnerEnv)
    (deployment : PipelineDeployment) (step_name : String) (step : Step)
    (info : Option ExecutionInfo) (e : PyError)
    (h1 : env.load_deployment_config = .ok deployment)
    (h2 : assocLookup env.entrypoint_args STEP_NAME_OPTION = some step_name)
    (h3 : assocLookup deployment.steps step_name = some step)
    (h4 : env.orchestrator.prepare_run deployment = .ok ())
    (h5 : env.orchestrator.run_step step = .ok info)
    (h6 : env.post_run deployment.pipeline.name step_name info = .error e) :
    (StepEntrypointConfiguration.run env).2 = .error e ∧
    Event.runStep step ∈ (StepEntrypointConfiguration.run env).1 := by
  simp [StepEntrypointConfiguration.run,
    StepEntrypointConfiguration._run_step, h1, h2, h3, h4, h5, h6]

/-- Witness for C8: a failing post-run hook makes the whole invocation
fail with that very error, after the step ran. -/
theorem c8_witness :
    (StepEntrypointConfiguration.run
      ⟨[("step_name", "s")], .ok ⟨⟨"p"⟩, [("s", ⟨5⟩)]⟩,
        ⟨fun _ => .ok (), fun _ => .ok none⟩,
        fun _ _ _ => .error (.exc "boom")⟩).2 = .error (.exc "boom") ∧
    Event.runStep ⟨5⟩ ∈
      (StepEntrypointConfiguration.run
        ⟨[("step_name", "s")], .ok ⟨⟨"p"⟩, [("s", ⟨5⟩)]⟩,
          ⟨fun _ => .ok (), fun _ => .ok none⟩,
          fun _ _ _ => .error (.exc "boom")⟩).1 :=
  c8_hook_error_propagates _ ⟨⟨"p"⟩, [("s", ⟨5⟩)]⟩ "s" ⟨5⟩ none
    (.exc "boom") rfl rfl rfl rfl rfl rfl

/-- Counterexample to claim C9: in a fully successful entrypoint
invocation both the step-resolution lookup and the capability activation
occur, yet the resolution does NOT happen before the activation — the
source activates the integrations first and only then looks up
`deployment_config.steps[step_name]`. -/
theorem c9_counterexample :
    ¬ stepLookupBeforeActivation
      (StepEntrypointConfiguration.run
        ⟨[("step_name", "s")], .ok ⟨⟨"p"⟩, [("s", ⟨5⟩)]⟩,
          ⟨fun _ => .ok (), fun _ => .ok none⟩,
          fun _ _ _ => .ok ()⟩).1 ∧
    (StepEntrypointConfiguration.run
      ⟨[("step_name", "s")], .ok ⟨⟨"p"⟩, [("s", ⟨5⟩)]⟩,
        ⟨fun _ => .ok (), fun _ => .ok none⟩,
        fun _ _ _ => .ok ()⟩).1.any Event.isStepLookup = true ∧
    (StepEntrypointConfiguration.run
      ⟨[("step_name", "s")], .ok ⟨⟨"p"⟩, [("s", ⟨5⟩)]⟩,
        ⟨fun _ => .ok (), fun _ => .ok none⟩,
        fun _ _ _ => .ok ()⟩).1.any Event.isActivate = true := by
  refine ⟨?_, rfl, rfl⟩
  unfold stepLookupBeforeActivation
  decide

/-- Claim C9 (amended): within one entrypoint invocation, `run()` performs
the stages in this strict order: deployment load first, then
capability/integration activation, then step resolution (the
`deployment.steps[step_name]` lookup, failing with the key error if
absent), then step configuration, then dispatch (preparation followed by
the orchestrator's execution), then the post-run hook — in particular
capability activation happens before step resolution. -/
theorem c9_amended_stage_order (env : RunnerEnv)
    (deployment : PipelineDeployment) (step_name : String)
    (h1 : env.load_deployment_config = .ok deployment)
    (h2 : assocLookup env.entrypoint_args STEP_NAME_OPTION = some step_name) :
    (assocLookup deployment.steps step_name = none →
      StepEntrypointConfiguration.run env =
        ([.loadDeployment, .activateIntegrations, .stepLookup step_name],
          .error (.keyError step_name))) ∧
    (∀ step info,
      assocLookup deployment.steps step_name = some step →
      env.orchestrator.prepare_run deployment = .ok () →
      env.orchestrator.run_step step = .ok info →
      env.post_run deployment.pipeline.name step_name info = .ok () →
      StepEntrypointConfiguration.run env =
        ([.loadDeployment, .activateIntegrations, .stepLookup step_name,
          .configureStep step, .prepareRun deployment, .runStep step,
          .postRun deployment.pipeline.name step_name info], .ok ())) := by
  constructor
  · intro h3
    simp [StepEntrypointConfiguration.run, h1, h2, h3]
  · intro step info h3 h4 h5 h6
    simp [StepEntrypointConfiguration.run,
      StepEntrypointConfiguration._run_step, h1, h2, h3, h4, h5, h6]

/-- Witness for the amended C9: a successful invocation produces exactly
the stage sequence load, activation, resolution, configuration, dispatch,
post-run. -/
theorem c9_witness :
    StepEntrypointConfiguration.run
      ⟨[("step_name", "s")], .ok ⟨⟨"q"⟩, [("s", ⟨6⟩)]⟩,
        ⟨fun _ => .ok (), fun _ => .ok (some ⟨9⟩)⟩,
        fun _ _ _ => .ok ()⟩ =
      ([.loadDeployment, .activateIntegrations, .stepLookup "s",
        .configureStep ⟨6⟩, .prepareRun ⟨⟨"q"⟩, [("s", ⟨6⟩)]⟩,
        .runStep ⟨6⟩, .postRun "q" "s" (some ⟨9⟩)], .ok ()) :=
  (c9_amended_stage_order
    ⟨[("step_name", "s")], .ok ⟨⟨"q"⟩, [("s", ⟨6⟩)]⟩,
      ⟨fun _ => .ok (), fun _ => .ok (some ⟨9⟩)⟩, fun _ _ _ => .ok ()⟩
    ⟨⟨"q"⟩, [("s", ⟨6⟩)]⟩ "s" rfl rfl).2 ⟨6⟩ (some ⟨9⟩) rfl rfl rfl rfl
